import Mathlib

/-!
Verification development for the DevPulse backend's analysis/fix job
orchestrator (src/routes/auth.routes.js).  The JavaScript source is shallowly
embedded: pure helpers become Lean functions, the stateful workflows become
trace-producing functions over an explicit environment of external-call
outcomes, and the durable job store becomes an explicit record type with
partial updates.  JavaScript strings are modelled by `String`, JSON values by
an inductive `Json` type with integer numerals (the numeric values appearing
in this system are integer scores and counts), and `JSON.parse` by a fuel-based
recursive-descent parser restricted accordingly.
-/

namespace DevPulse

/-! ## JSON values -/

/-- JSON values as produced by `JSON.parse`.  Numbers are modelled as integers:
every numeric field in the schema the source requests from the agent
(`codeQuality.score`, etc.) is an integer. -/
inductive Json where
  | jnull : Json
  | jbool : Bool → Json
  | jnum : Int → Json
  | jstr : String → Json
  | jarr : List Json → Json
  | jobj : List (String × Json) → Json

/-- JavaScript truthiness of a JSON value (used by the source's `||` defaults
and its `parsed.architecture || parsed.codeQuality` acceptance test). -/
def Json.truthy : Json → Bool
  | .jnull => false
  | .jbool b => b
  | .jnum n => n != 0
  | .jstr s => s != ""
  | .jarr _ => true
  | .jobj _ => true

/-- Property access `j.k`: defined on objects only (access on any other value
yields JavaScript `undefined`, modelled as `none`).  Duplicate keys resolve to
the last occurrence, as `JSON.parse` does. -/
def Json.getField : Json → String → Option Json
  | .jobj fields, k => (fields.reverse.find? (fun f => f.1 == k)).map (fun f => f.2)
  | _, _ => none

/-- Truthiness of a field access, `Boolean(j.k)`. -/
def Json.truthyField (j : Json) (k : String) : Bool :=
  match j.getField k with
  | some v => v.truthy
  | none => false

/-! ## A model of `JSON.parse`

Recursive-descent parser over the character list, with a fuel argument for
termination; fuel `length + 1` always suffices since every recursive step
consumes at least one character.  Escape sequences are handled for the common
cases; numerals are integers. -/

def isWsChar (c : Char) : Bool := c = ' ' || c = '\n' || c = '\t' || c = '\r'

def skipWs (cs : List Char) : List Char := cs.dropWhile isWsChar

/-- Parse the body of a string literal (after the opening quote), returning
the characters and the remainder after the closing quote. -/
def parseStrChars : List Char → Option (List Char × List Char)
  | [] => none
  | c :: rest =>
    if c = '"' then some ([], rest)
    else if c = '\\' then
      match rest with
      | [] => none
      | e :: rest2 =>
        let ec := if e = 'n' then '\n' else if e = 't' then '\t' else if e = 'r' then '\r' else e
        match parseStrChars rest2 with
        | some (s, r) => some (ec :: s, r)
        | none => none
    else
      match parseStrChars rest with
      | some (s, r) => some (c :: s, r)
      | none => none

def digitsToInt (ds : List Char) : Int :=
  ds.foldl (fun a c => a * 10 + ((c.toNat - 48 : Nat) : Int)) 0

def parseNum (cs : List Char) : Option (Int × List Char) :=
  match cs with
  | '-' :: rest =>
    let ds := rest.takeWhile Char.isDigit
    if ds = [] then none else some (-(digitsToInt ds), rest.dropWhile Char.isDigit)
  | _ =>
    let ds := cs.takeWhile Char.isDigit
    if ds = [] then none else some (digitsToInt ds, cs.dropWhile Char.isDigit)

def stripLit (lit : List Char) (cs : List Char) : Option (List Char) :=
  if cs.take lit.length = lit then some (cs.drop lit.length) else none

mutual

def parseVal : Nat → List Char → Option (Json × List Char)
  | 0, _ => none
  | f + 1, cs0 =>
    match skipWs cs0 with
    | [] => none
    | c :: rest =>
      if c = '\x7b' then parseObjBody f rest true []
      else if c = '[' then parseArrBody f rest true []
      else if c = '"' then
        match parseStrChars rest with
        | some (s, r) => some (.jstr ⟨s⟩, r)
        | none => none
      else if c = 't' || c = 'f' || c = 'n' then
        match stripLit "true".data (c :: rest) with
        | some r => some (.jbool true, r)
        | none =>
          match stripLit "false".data (c :: rest) with
          | some r => some (.jbool false, r)
          | none =>
            match stripLit "null".data (c :: rest) with
            | some r => some (.jnull, r)
            | none => none
      else
        match parseNum (c :: rest) with
        | some (n, r) => some (.jnum n, r)
        | none => none

def parseObjBody : Nat → List Char → Bool → List (String × Json) → Option (Json × List Char)
  | 0, _, _, _ => none
  | f + 1, cs0, isFirst, acc =>
    match skipWs cs0 with
    | [] => none
    | c :: rest =>
      if c = '\x7d' then some (.jobj acc.reverse, rest)
      else
        let afterComma : Option (List Char) :=
          if isFirst then some (c :: rest)
          else if c = ',' then some rest else none
        match afterComma with
        | none => none
        | some cs1 =>
          match skipWs cs1 with
          | '"' :: rest2 =>
            match parseStrChars rest2 with
            | some (key, r1) =>
              match skipWs r1 with
              | ':' :: r2 =>
                match parseVal f r2 with
                | some (v, r3) => parseObjBody f r3 false ((⟨key⟩, v) :: acc)
                | none => none
              | _ => none
            | none => none
          | _ => none

def parseArrBody : Nat → List Char → Bool → List Json → Option (Json × List Char)
  | 0, _, _, _ => none
  | f + 1, cs0, isFirst, acc =>
    match skipWs cs0 with
    | [] => none
    | c :: rest =>
      if c = ']' then some (.jarr acc.reverse, rest)
      else
        let cs1opt : Option (List Char) :=
          if isFirst then some (c :: rest)
          else if c = ',' then some rest else none
        match cs1opt with
        | none => none
        | some cs1 =>
          match parseVal f cs1 with
          | some (v, r) => parseArrBody f r false (v :: acc)
          | none => none

end

/-- `JSON.parse`: the whole input must be one value plus trailing whitespace. -/
def jsonParse (s : String) : Option Json :=
  match parseVal (s.length + 1) s.data with
  | some (j, rest) => if skipWs rest = [] then some j else none
  | none => none

/-! ## Balanced-brace candidate collection (`extractJSON`, source lines 1215-1253) -/

/-- Updating the nesting counter at one character of `extractJSON`'s scan. -/
def braceDepth (depth : Int) (c : Char) : Int :=
  if c = '\x7b' then depth + 1 else if c = '\x7d' then depth - 1 else depth

/-- The inner loop of `extractJSON`: starting from a `'\x7b'`, advance a
nesting counter per character; the candidate ends when the counter returns to
zero.  Returns the candidate's characters and the remainder of the text. -/
def braceScan : Int → List Char → List Char → Option (List Char × List Char)
  | _, _, [] => none
  | depth, acc, c :: rest =>
    if braceDepth depth c = 0 then some ((c :: acc).reverse, rest)
    else braceScan (braceDepth depth c) (c :: acc) rest

theorem braceScan_rest_lt (l : List Char) : ∀ depth acc cand rest,
    braceScan depth acc l = some (cand, rest) → rest.length < l.length := by
  induction l with
  | nil =>
    intro depth acc cand rest h
    exact absurd h (by rw [braceScan]; simp)
  | cons c cs ih =>
    intro depth acc cand rest h
    rw [braceScan] at h
    split at h
    · simp only [Option.some.injEq, Prod.mk.injEq] at h
      obtain ⟨-, h2⟩ := h
      subst h2
      simp
    · have := ih _ _ _ _ h
      simp only [List.length_cons]
      omega

theorem length_dropWhile_le {α : Type} (p : α → Bool) (l : List α) :
    (l.dropWhile p).length ≤ l.length := by
  induction l with
  | nil => simp
  | cons c cs ih =>
    rw [List.dropWhile_cons]
    split
    · simp only [List.length_cons]; omega
    · simp

/-- The outer loop of `extractJSON`: collect every maximal balanced-brace
substring, in order of appearance; stop when no `'\x7b'` remains (candidates
empty) or a brace never closes.  Structural recursion on a fuel argument;
each iteration strictly shortens the text (`braceScan_rest_lt`), so fuel
`length + 1` always suffices. -/
def collectCandidatesFuel : Nat → List Char → List String
  | 0, _ => []
  | f + 1, cs =>
    match cs.dropWhile (fun c => !(c = '\x7b')) with
    | [] => []
    | tc :: tcs =>
      match braceScan 0 [] (tc :: tcs) with
      | some (cand, rest) => ⟨cand⟩ :: collectCandidatesFuel f rest
      | none => []

def collectCandidates (cs : List Char) : List String :=
  collectCandidatesFuel (cs.length + 1) cs

inductive ExtractErr where
  | noJsonFound
  | malformedJson
deriving DecidableEq

/-- The acceptance test of `extractJSON`'s last-to-first loop:
`parsed.architecture || parsed.codeQuality`. -/
def acceptCandidate (j : Json) : Bool :=
  j.truthyField "architecture" || j.truthyField "codeQuality"

/-- One candidate's contribution to the loop: `some` when it both parses and
is accepted, `none` otherwise (parse errors are swallowed by the loop). -/
def acceptedParse (c : String) : Option Json :=
  match jsonParse c with
  | some j => if acceptCandidate j then some j else none
  | none => none

/-- The last-to-first scan over candidates. -/
def pickLastAccepted (cands : List String) : Option Json :=
  cands.reverse.findSome? acceptedParse

/-- `extractJSON` (source lines 1215-1253): collect balanced-brace candidates;
throw `No JSON found` if none; return the first candidate, scanning from the
last to the first, that parses and is accepted; otherwise fall back to parsing
the last candidate unconditionally. -/
def extractJSON (output : String) : Except ExtractErr Json :=
  match collectCandidates output.data with
  | [] => .error .noJsonFound
  | c :: cs =>
    match pickLastAccepted (c :: cs) with
    | some j => .ok j
    | none =>
      match jsonParse ((c :: cs).getLast (List.cons_ne_nil c cs)) with
      | some j => .ok j
      | none => .error .malformedJson

/-! ## Normalization of the extracted agent output (`runAIAnalysis`, lines 1040-1079) -/

/-- `jsonData.k || dflt`: the field when present and truthy, else the default. -/
def jsOrField (j : Json) (k : String) (dflt : Json) : Json :=
  match j.getField k with
  | some v => if v.truthy then v else dflt
  | none => dflt

def defaultArchitecture : Json :=
  .jobj [("pattern", .jstr "Unknown"), ("strengths", .jarr []), ("weaknesses", .jarr [])]

def defaultCodeQuality : Json :=
  .jobj [("score", .jnum 75), ("issues", .jarr [])]

/-- The analysis-result object assembled by `runAIAnalysis`. -/
structure AIResult where
  success : Bool
  errMsg : Option String
  architecture : Json
  codeQuality : Json
  bugs : Json
  security : Json
  recommendations : Json

/-- The success branch of `runAIAnalysis`: per-key `||`-defaulting of the
extracted JSON into the result object.  Only the exact key names
`architecture`, `codeQuality`, `bugs`, `security`, `recommendations` are
consulted. -/
def normalizeAI (jsonData : Json) : AIResult :=
  { success := true
    errMsg := none
    architecture := jsOrField jsonData "architecture" defaultArchitecture
    codeQuality := jsOrField jsonData "codeQuality" defaultCodeQuality
    bugs := jsOrField jsonData "bugs" (.jarr [])
    security := jsOrField jsonData "security" (.jarr [])
    recommendations := jsOrField jsonData "recommendations" (.jarr []) }

/-- The catch branch of `runAIAnalysis` (agent failure or extraction failure). -/
def failedAIResult (msg : String) : AIResult :=
  { success := false
    errMsg := some msg
    architecture := .jobj [("pattern", .jstr "Error"), ("strengths", .jarr []), ("weaknesses", .jarr [])]
    codeQuality := .jobj [("score", .jnum 0), ("issues", .jarr [])]
    bugs := .jarr []
    security := .jarr []
    recommendations := .jarr [] }

/-! ## The agent process runner (`runClineTask`, lines 1081-1113) -/

/-- The observable outcome of the spawned agent process: either the `close`
event fires with an exit code and the stdout captured so far, or the
10-minute timer expires first and the process is killed with the stdout
captured so far.  (Whichever settles the promise first wins; the model takes
that first event as input.) -/
inductive ClineEvent where
  | exited (code : Int) (output : String)
  | timedOut (output : String)

/-- The timeout passed to `setTimeout` in `runClineTask`, in milliseconds. -/
def clineTimeoutMs : Nat := 600000

/-- Result discipline of `runClineTask`: exit code 0 resolves; a nonzero exit
still resolves when more than 100 characters of stdout were captured; on
timeout the (killed) process resolves when any output was captured and rejects
with the timeout error otherwise.  (`String.length` models the JavaScript
string length.) -/
def runClineTask : ClineEvent → Except String String
  | .exited code out => if code = 0 || out.length > 100 then .ok out else .error "Cline execution failed"
  | .timedOut out => if out.length > 0 then .ok out else .error "Cline timeout"

/-- `runAIAnalysis` end to end, as a function of the agent-process outcome:
its `try` block runs the agent and extracts JSON; its `catch` swallows both
agent rejection and extraction errors. -/
def runAIAnalysis (ev : ClineEvent) : AIResult :=
  match runClineTask ev with
  | .error e => failedAIResult e
  | .ok out =>
    match extractJSON out with
    | .ok j => normalizeAI j
    | .error _ => failedAIResult "No JSON found"

/-! ## Scoring (`calculateScore`, lines 1209-1213) -/

/-- The `score` binding of `calculateScore`:
`aiAnalysis?.codeQuality?.score || 75`.  The score field, when present, is
modelled as a JSON integer — the schema the source requests from the agent
(`"score": 0-100`); a present zero score is falsy in JavaScript and therefore
also replaced by 75. -/
def scoreOf (ai : AIResult) : Int :=
  match ai.codeQuality.getField "score" with
  | some (.jnum n) => if n = 0 then 75 else n
  | _ => 75

/-- The `grade` binding of `calculateScore`. -/
def gradeOf (score : Int) : String :=
  if score ≥ 90 then "A" else if score ≥ 80 then "B" else if score ≥ 70 then "C" else "D"

/-- `calculateScore` (lines 1209-1213): `{ score, grade }`. -/
def calculateScore (ai : AIResult) : Int × String := (scoreOf ai, gradeOf (scoreOf ai))

/-! ## High-impact issue ranking (`identifyHighImpactIssues`, lines 745-786)

The `ai_analysis` record consumed here is modelled with its `security` and
`bugs` arrays; an absent or non-array field behaves exactly like an empty
array in the source (the `Array.isArray` guard skips it), so both are
modelled as `[]`. -/

structure SecFinding where
  vulnType : Option String
  severity : String
  description : Option String
  file : Option String

structure BugFinding where
  severity : String
  description : Option String
  file : Option String

structure AiFindings where
  security : List SecFinding
  bugs : List BugFinding

structure Issue where
  id : String
  issueType : String
  severity : String
  title : String
  description : Option String
  file : Option String
  priority : Int
  fixable : Bool
deriving DecidableEq

/-- `s || dflt` on an optional JavaScript string (absent and empty are falsy). -/
def jsOrStr (o : Option String) (dflt : String) : String :=
  match o with
  | some s => if s = "" then dflt else s
  | none => dflt

def isHighSeverity (sev : String) : Bool := sev = "critical" || sev = "high"

/-- One pushed security issue; `idx` is `issues.length` at push time. -/
def mkSecurityIssue (idx : Nat) (v : SecFinding) : Issue :=
  { id := "security-" ++ toString idx
    issueType := "SECURITY"
    severity := v.severity
    title := jsOrStr v.vulnType "Security Vulnerability"
    description := some (jsOrStr v.description "Security issue detected")
    file := v.file
    priority := if v.severity = "critical" then 1 else 2
    fixable := true }

/-- One pushed bug issue; `idx` is `issues.length` at push time. -/
def mkBugIssue (idx : Nat) (b : BugFinding) : Issue :=
  { id := "bug-" ++ toString idx
    issueType := "BUG"
    severity := b.severity
    title := match b.description with
             | some d => if d.take 100 = "" then "Critical Bug" else d.take 100
             | none => "Critical Bug"
    description := b.description
    file := b.file
    priority := if b.severity = "critical" then 1 else 3
    fixable := true }

/-- Stable insertion of an earlier-encountered issue in front of any
equal-priority issue already placed. -/
def insertIssue (x : Issue) : List Issue → List Issue
  | [] => [x]
  | y :: ys => if y.priority < x.priority then y :: insertIssue x ys else x :: y :: ys

/-- A stable ascending sort by `priority`.  This models
`issues.sort((a, b) => a.priority - b.priority)`: ECMAScript's
`Array.prototype.sort` is stable, and the output of any stable sort keyed by
`priority` is uniquely determined by the input, so stable insertion sort
realizes it exactly. -/
def sortByPriority : List Issue → List Issue
  | [] => []
  | x :: xs => insertIssue x (sortByPriority xs)

/-- Map with the running index, starting at `n` (the `issues.length` counter
threading through the source's `push` calls). -/
def mapWithIdx {α β : Type} (f : Nat → α → β) : Nat → List α → List β
  | _, [] => []
  | n, x :: xs => f n x :: mapWithIdx f (n + 1) xs

/-- The issue list in push (encounter) order: filtered security findings
first (uncapped), then the first 5 filtered bug findings. -/
def collectedIssues (ai : AiFindings) : List Issue :=
  let secIssues := mapWithIdx mkSecurityIssue 0 (ai.security.filter (fun s => isHighSeverity s.severity))
  let bugIssues := mapWithIdx mkBugIssue secIssues.length
    ((ai.bugs.filter (fun b => isHighSeverity b.severity)).take 5)
  secIssues ++ bugIssues

/-- `identifyHighImpactIssues`: collect then sort ascending by priority. -/
def identifyHighImpactIssues (ai : AiFindings) : List Issue :=
  sortByPriority (collectedIssues ai)

/-! ## Substring test (JavaScript `String.prototype.includes`) -/

def startsWithPat : List Char → List Char → Bool
  | _, [] => true
  | [], _ :: _ => false
  | c :: cs, p :: ps => c = p && startsWithPat cs ps

def hasSub (s pat : List Char) : Bool :=
  match s with
  | [] => pat.isEmpty
  | _ :: rest => startsWithPat s pat || hasSub rest pat

def strContains (s pat : String) : Bool := hasSub s.data pat.data

/-! ## The job store

Each workflow run performs a sequence of partial row updates against its job's
row (`analyses` or `autonomous_fix_jobs`).  A `JobUpdate` carries exactly the
columns one `update` call writes (`none` = column untouched); `applyUpdate`
is the store's field-level merge.  Store writes are assumed to succeed — the
store is an external collaborator specified only at its interface. -/

structure JobUpdate where
  status : Option String
  progress : Option Int
  currentStep : Option Int
  message : Option String
  error : Option String
  codeQuality : Option (Int × String)
  highImpact : Option (List Issue)
  prInfo : Option (String × Int)
  setCompletedAt : Bool
deriving DecidableEq

def emptyUpdate : JobUpdate := ⟨none, none, none, none, none, none, none, none, false⟩

/-- `updateFixJobProgress`: writes status, progress and message. -/
def stepUpdate (st : String) (p : Int) (msg : String) : JobUpdate :=
  { emptyUpdate with status := some st, progress := some p, message := some msg }

/-- `updateProgress` (analysis workflow): also writes `current_step`. -/
def stepUpdateWithStep (st : String) (p : Int) (step : Int) (msg : String) : JobUpdate :=
  { emptyUpdate with
      status := some st, progress := some p, currentStep := some step, message := some msg }

/-- The catch-block update of either workflow: status failed plus the error
message; progress is not touched. -/
def failedUpdate (msg : String) : JobUpdate :=
  { emptyUpdate with status := some "failed", error := some msg }

/-- The completion update of `performAnalysis` (result columns included). -/
def analysisCompletedUpdate (cq : Int × String) : JobUpdate :=
  { emptyUpdate with
      status := some "completed", progress := some 100, currentStep := some 6,
      message := some "Analysis complete", codeQuality := some cq, setCompletedAt := true }

/-- The immediate completion update of `runAutonomousHighImpactFix` when no
high-impact issue qualifies. -/
def fixNoIssuesUpdate : JobUpdate :=
  { emptyUpdate with
      status := some "completed", progress := some 100,
      message := some "No high-impact issues detected", setCompletedAt := true }

/-- The completion update of `runAutonomousHighImpactFix` after PR creation. -/
def fixCompletedUpdate (prUrl : String) (prNumber : Int) : JobUpdate :=
  { emptyUpdate with
      status := some "completed", progress := some 100,
      message := some "PR created successfully", prInfo := some (prUrl, prNumber),
      setCompletedAt := true }

/-- The `high_impact_issues` column write before cloning. -/
def setHighImpactUpdate (issues : List Issue) : JobUpdate :=
  { emptyUpdate with highImpact := some issues }

structure JobRecord where
  status : String
  progress : Int
  currentStep : Int
  message : String
  error : Option String
  codeQuality : Option (Int × String)
  highImpact : Option (List Issue)
  prInfo : Option (String × Int)
  completedAt : Bool
deriving DecidableEq

/-- Field-level merge of one partial update into a row. -/
def applyUpdate (r : JobRecord) (u : JobUpdate) : JobRecord :=
  { status := u.status.getD r.status
    progress := u.progress.getD r.progress
    currentStep := u.currentStep.getD r.currentStep
    message := u.message.getD r.message
    error := match u.error with | some e => some e | none => r.error
    codeQuality := match u.codeQuality with | some c => some c | none => r.codeQuality
    highImpact := match u.highImpact with | some h => some h | none => r.highImpact
    prInfo := match u.prInfo with | some p => some p | none => r.prInfo
    completedAt := r.completedAt || u.setCompletedAt }

/-- The row inserted by `analyzeRepository` before the workflow starts. -/
def initialAnalysisRecord : JobRecord :=
  ⟨"pending", 0, 0, "Analysis queued...", none, none, none, none, false⟩

/-- The row inserted by `autonomousHighImpactFix` before the workflow starts. -/
def initialFixRecord : JobRecord :=
  ⟨"initializing", 0, 0, "Identifying high-impact issues...", none, none, none, none, false⟩

/-! ## Workflow traces

Each workflow run is modelled as the sequence of externally visible effects it
performs, as a function of an environment fixing the outcome of every
fallible external call (process spawns, the GitHub API).  Store writes are
assumed reliable; `analyzeStructure`'s directory walk swallows every
filesystem error and cannot fail. -/

inductive Effect where
  | store (u : JobUpdate)
  | mkTempDir
  | gitClone
  | scanStructure
  | agentInvoke
  | gitCmd (args : List String)
  | gitPush
  | createPR
  | cleanupDir
deriving DecidableEq

/-- The rejection message of `cloneRepository` on a nonzero git exit: a single
generic prefix with the captured stderr appended, with no inspection of the
stderr contents. -/
def cloneFailMsg (stderr : String) : String := "Git clone failed: " ++ stderr

/-- The error classification of `pushToGitHub`, by stderr substring. -/
def pushErrorMsg (owner repo stderr : String) : String :=
  if strContains stderr "403" then "GitHub auth failed. Token may lack 'repo' permissions."
  else if strContains stderr "404" then "Repository " ++ owner ++ "/" ++ repo ++ " not found."
  else "Push failed: " ++ stderr

/-- `buildCommitMessage` (lines 869-885). -/
def buildCommitMessage (issues : List Issue) : String :=
  let securityFixes := (issues.filter (fun i => i.issueType = "SECURITY")).length
  let bugFixes := (issues.filter (fun i => i.issueType = "BUG")).length
  let title :=
    if securityFixes > 0 then
      "🔒 Security: Fix " ++ toString securityFixes ++ " Vulnerabilit" ++
        (if securityFixes > 1 then "ies" else "y")
    else if bugFixes > 0 then
      "🐛 Fix: " ++ toString bugFixes ++ " Critical Bug" ++ (if bugFixes > 1 then "s" else "")
    else "🔒 Fix: High-Impact Issues"
  title ++ "\n\nFixed " ++ toString issues.length ++ " high-impact issue" ++
    (if issues.length > 1 then "s" else "") ++ " identified by DevPulse AI.\n\nGenerated by DevPulse AI"

/-- Outcomes of the external calls `performAnalysis` can make.  The agent
outcome feeds `runAIAnalysis`, which never throws; the optional follow-up
`runAIFixWorkflow` catches every internal error itself. -/
structure AnalysisEnv where
  mkdirOk : Bool
  mkdirErr : String
  cloneOk : Bool
  cloneStderr : String
  agentEvent : ClineEvent
  enableAIFix : Bool
  hasAccessToken : Bool
  aiFixOk : Bool

/-- The catch block of `performAnalysis`: record the failure, then remove the
workspace (the temp path is assigned before any fallible call, so the cleanup
always runs). -/
def analysisFailTrace (msg : String) : List Effect :=
  [.store (failedUpdate msg), .cleanupDir]

/-- `runAIFixWorkflow` reusing the analysis workspace.  Its job-store writes
touch only the `ai_fix_result` column — never status or progress — modelled as
a `.store emptyUpdate`; on its internal failure it catches and records, on
success it releases the workspace. -/
def aiFixTrace (ok : Bool) : List Effect :=
  if ok then
    [.gitCmd ["config", "user.name", "DevPulse AI"],
     .gitCmd ["config", "user.email", "ai@devpulse.app"],
     .gitCmd ["checkout", "-b", "devpulse-fix-<timestamp>"],
     .agentInvoke,
     .gitCmd ["add", "."],
     .gitCmd ["commit", "-m", "🤖 AI improvements by DevPulse"],
     .gitPush, .createPR, .store emptyUpdate, .cleanupDir]
  else [.store emptyUpdate]

/-- `performAnalysis` (lines 651-739) as an effect trace. -/
def performAnalysis (env : AnalysisEnv) : List Effect :=
  .mkTempDir ::
  (if env.mkdirOk = false then analysisFailTrace env.mkdirErr
   else
    .store (stepUpdateWithStep "cloning" 15 1 "Cloning repository...") ::
    .gitClone ::
    (if env.cloneOk = false then analysisFailTrace (cloneFailMsg env.cloneStderr)
     else
      .store (stepUpdateWithStep "analyzing" 30 2 "Analyzing structure...") ::
      .scanStructure ::
      .store (stepUpdateWithStep "ai_analyzing" 75 5 "Running AI analysis...") ::
      .agentInvoke ::
      .store (stepUpdateWithStep "analyzing" 90 6 "Calculating score...") ::
      .store (analysisCompletedUpdate (calculateScore (runAIAnalysis env.agentEvent))) ::
      (if env.enableAIFix && env.hasAccessToken then aiFixTrace env.aiFixOk
       else [.cleanupDir])))

/-- Outcomes of the external calls `runAutonomousHighImpactFix` can make.
`fixGenOk` is the success flag of `generateHighImpactFixes` (agent run plus
output parsing, both failure modes collapse into its `success: false`
result). -/
structure FixEnv where
  mkdirOk : Bool
  mkdirErr : String
  cloneOk : Bool
  cloneStderr : String
  fixGenOk : Bool
  fixGenErr : String
  gitConfigNameOk : Bool
  gitConfigEmailOk : Bool
  gitCheckoutOk : Bool
  gitAddOk : Bool
  gitCommitOk : Bool
  gitStderr : String
  pushOk : Bool
  pushStderr : String
  prOk : Bool
  prErrMsg : String
  prUrl : String
  prNumber : Int

/-- The catch block of `runAutonomousHighImpactFix`. -/
def fixFailTrace (msg : String) : List Effect :=
  [.store (failedUpdate msg), .cleanupDir]

/-- `runAutonomousHighImpactFix` (lines 515-645) as an effect trace.  `owner`
and `repo` are the repository coordinates parsed from the (valid) repo URL. -/
def runAutonomousHighImpactFix (env : FixEnv) (ai : AiFindings) (owner repo : String) :
    List Effect :=
  .store (stepUpdate "analyzing" 10 "Analyzing issues...") ::
  (let issues := identifyHighImpactIssues ai
   if issues.length = 0 then [.store fixNoIssuesUpdate]
   else
    .store (setHighImpactUpdate issues) ::
    .store (stepUpdate "cloning" 20 "Cloning repository...") ::
    .mkTempDir ::
    (if env.mkdirOk = false then fixFailTrace env.mkdirErr
     else
      .gitClone ::
      (if env.cloneOk = false then fixFailTrace (cloneFailMsg env.cloneStderr)
       else
        .store (stepUpdate "fixing" 40 "Generating fixes...") ::
        .agentInvoke ::
        (if env.fixGenOk = false then fixFailTrace ("Fix generation failed: " ++ env.fixGenErr)
         else
          .store (stepUpdate "committing" 60 "Committing changes...") ::
          .gitCmd ["config", "user.name", "DevPulse AI"] ::
          (if env.gitConfigNameOk = false then fixFailTrace env.gitStderr
           else
            .gitCmd ["config", "user.email", "ai@devpulse.dev"] ::
            (if env.gitConfigEmailOk = false then fixFailTrace env.gitStderr
             else
              .gitCmd ["checkout", "-b", "devpulse-fix-<timestamp>"] ::
              (if env.gitCheckoutOk = false then fixFailTrace env.gitStderr
               else
                .gitCmd ["add", "."] ::
                (if env.gitAddOk = false then fixFailTrace env.gitStderr
                 else
                  .gitCmd ["commit", "-m", buildCommitMessage issues] ::
                  (if env.gitCommitOk = false then fixFailTrace env.gitStderr
                   else
                    .store (stepUpdate "pushing" 75 "Pushing changes...") ::
                    .gitPush ::
                    (if env.pushOk = false then
                      fixFailTrace (pushErrorMsg owner repo env.pushStderr)
                     else
                      .store (stepUpdate "creating_pr" 90 "Creating PR...") ::
                      .createPR ::
                      (if env.prOk = false then
                        fixFailTrace ("GitHub API error: " ++ env.prErrMsg)
                       else
                        [.store (fixCompletedUpdate env.prUrl env.prNumber),
                         .cleanupDir])))))))))))

/-- The store updates performed along a trace, in order. -/
def storeUpdates (effs : List Effect) : List JobUpdate :=
  effs.filterMap (fun e => match e with | .store u => some u | _ => none)

/-- All intermediate row states, starting from the inserted row. -/
def statesFrom (r : JobRecord) : List JobUpdate → List JobRecord
  | [] => [r]
  | u :: us => r :: statesFrom (applyUpdate r u) us

def recordStates (init : JobRecord) (effs : List Effect) : List JobRecord :=
  statesFrom init (storeUpdates effs)

def finalRecord (init : JobRecord) (effs : List Effect) : JobRecord :=
  (storeUpdates effs).foldl applyUpdate init

/-- Claim C5's row invariant. -/
def progressStatusOk (r : JobRecord) : Prop := r.progress = 100 ↔ r.status = "completed"

def progressMonotone (l : List JobRecord) : Prop :=
  List.Chain' (fun a b => a.progress ≤ b.progress) l

/-! ## The progress stream (`streamAnalysisProgress`, lines 421-477) -/

structure JobSnap where
  status : String
  progress : Int
  currentStep : Int
  totalSteps : Int
  message : String
deriving DecidableEq

inductive StreamEvent where
  | connected
  | progressEv (status : String) (progress : Int) (message : String)
  | terminal (status : String)
  | errEv
deriving DecidableEq

def isTerminalStatus (s : String) : Bool := s = "completed" || s = "failed"

/-- The fixed polling interval of the stream, in milliseconds. -/
def streamIntervalMs : Nat := 1000

/-- The ticks of the polling timer.  Each element of `polls` is one store
read (`none` = row not found, which emits an error event and closes).  The
list ending without a terminal status models the client disconnecting: the
`close` handler clears the timer and no further event is emitted.  `last` is
the `lastProgress` variable, initialized to `-1`. -/
def streamTicks : Int → List (Option JobSnap) → List StreamEvent
  | _, [] => []
  | last, o :: rest =>
    match o with
    | none => [.errEv]
    | some d =>
      let evs : List StreamEvent :=
        if d.progress ≠ last then [.progressEv d.status d.progress d.message] else []
      let last2 := if d.progress ≠ last then d.progress else last
      if isTerminalStatus d.status then evs ++ [.terminal d.status]
      else evs ++ streamTicks last2 rest

/-- `streamAnalysisProgress`: one connected event, then the timer ticks. -/
def streamAnalysisProgress (polls : List (Option JobSnap)) : List StreamEvent :=
  .connected :: streamTicks (-1) polls

/-! ## The fix-trigger endpoint (`autonomousHighImpactFix`, lines 255-320) -/

structure AnalysisRow where
  repoName : String
  repoOwner : String
  repoUrl : String
  status : String
deriving DecidableEq

inductive TriggerEffect where
  | insertFixJob
  | launchFixWorkflow
deriving DecidableEq

structure TriggerResponse where
  httpStatus : Nat
  effects : List TriggerEffect
deriving DecidableEq

/-- JavaScript truthiness of an optional request-body string. -/
def jsTruthyStr : Option String → Bool
  | some s => s ≠ ""
  | none => false

/-- The synchronous part of the trigger endpoint: validation, lookup and
state check before any background work.  `lookup` is the single-row select on
`analyses` (`none` covers both a store error and a missing row). -/
def autonomousHighImpactFixEndpoint (analysisId accessToken : Option String)
    (lookup : Option AnalysisRow) : TriggerResponse :=
  if !(jsTruthyStr analysisId && jsTruthyStr accessToken) then ⟨400, []⟩
  else
    match lookup with
    | none => ⟨404, []⟩
    | some a =>
      if a.status ≠ "completed" then ⟨400, []⟩
      else ⟨200, [.insertFixJob, .launchFixWorkflow]⟩

/-! ## Helper lemmas -/

def priorityLe (a b : Issue) : Prop := a.priority ≤ b.priority

theorem insertIssue_perm (x : Issue) (l : List Issue) :
    List.Perm (insertIssue x l) (x :: l) := by
  induction l with
  | nil => simp [insertIssue]
  | cons y ys ih =>
    rw [insertIssue]
    split
    · exact (List.Perm.cons y ih).trans (List.Perm.swap x y ys)
    · exact List.Perm.refl _

theorem sortByPriority_perm (l : List Issue) : List.Perm (sortByPriority l) l := by
  induction l with
  | nil => simp [sortByPriority]
  | cons x xs ih =>
    rw [sortByPriority]
    exact (insertIssue_perm x (sortByPriority xs)).trans (List.Perm.cons x ih)

theorem insertIssue_sorted (x : Issue) : ∀ (l : List Issue), List.Sorted priorityLe l →
    List.Sorted priorityLe (insertIssue x l) := by
  intro l
  induction l with
  | nil => intro _; simp [insertIssue, priorityLe]
  | cons y ys ih =>
    intro h
    rw [List.sorted_cons] at h
    obtain ⟨hy, hys⟩ := h
    rw [insertIssue]
    split
    · rename_i hlt
      rw [List.sorted_cons]
      refine ⟨?_, ih hys⟩
      intro b hb
      rcases List.mem_cons.mp ((insertIssue_perm x ys).mem_iff.mp hb) with hbx | hbys
      · subst hbx
        exact le_of_lt hlt
      · exact hy b hbys
    · rename_i hnlt
      rw [List.sorted_cons]
      refine ⟨?_, ?_⟩
      · intro b hb
        rcases List.mem_cons.mp hb with hby | hbys
        · subst hby
          unfold priorityLe
          omega
        · have h1 : priorityLe x y := by unfold priorityLe; omega
          exact le_trans h1 (hy b hbys)
      · rw [List.sorted_cons]
        exact ⟨hy, hys⟩

theorem sortByPriority_sorted (l : List Issue) :
    List.Sorted priorityLe (sortByPriority l) := by
  induction l with
  | nil => simp [sortByPriority]
  | cons x xs ih =>
    rw [sortByPriority]
    exact insertIssue_sorted x _ ih

theorem filter_insertIssue (x : Issue) (p : Int) : ∀ (l : List Issue),
    (insertIssue x l).filter (fun i => i.priority == p) =
      if x.priority = p then x :: l.filter (fun i => i.priority == p)
      else l.filter (fun i => i.priority == p) := by
  intro l
  induction l with
  | nil => by_cases hx : x.priority = p <;> simp [insertIssue, List.filter_cons, hx]
  | cons y ys ih =>
    rw [insertIssue]
    split
    · rename_i hlt
      by_cases hx : x.priority = p
      · have hy : ¬ y.priority = p := by omega
        simp [List.filter_cons, ih, hx, hy]
      · by_cases hy : y.priority = p <;> simp [List.filter_cons, ih, hx, hy]
    · by_cases hx : x.priority = p <;> by_cases hy : y.priority = p <;>
        simp [List.filter_cons, hx, hy]

theorem filter_sortByPriority (p : Int) (l : List Issue) :
    (sortByPriority l).filter (fun i => i.priority == p) =
      l.filter (fun i => i.priority == p) := by
  induction l with
  | nil => simp [sortByPriority]
  | cons x xs ih =>
    rw [sortByPriority, filter_insertIssue]
    by_cases hx : x.priority = p <;> simp [List.filter_cons, hx, ih]

theorem mem_mapWithIdx {α β : Type} (f : Nat → α → β) :
    ∀ (n : Nat) (l : List α) (b : β), b ∈ mapWithIdx f n l → ∃ k x, x ∈ l ∧ b = f k x := by
  intro n l
  induction l generalizing n with
  | nil => intro b hb; simp [mapWithIdx] at hb
  | cons x xs ih =>
    intro b hb
    rw [mapWithIdx] at hb
    rcases List.mem_cons.mp hb with hbx | hbm
    · exact ⟨n, x, by simp, hbx⟩
    · obtain ⟨k, y, hy, hbe⟩ := ih (n + 1) b hbm
      exact ⟨k, y, by simp [hy], hbe⟩

theorem length_mapWithIdx {α β : Type} (f : Nat → α → β) :
    ∀ (n : Nat) (l : List α), (mapWithIdx f n l).length = l.length := by
  intro n l
  induction l generalizing n with
  | nil => simp [mapWithIdx]
  | cons x xs ih => simp [mapWithIdx, ih]

theorem countP_mapWithIdx_security (l : List SecFinding) : ∀ (n : Nat),
    (mapWithIdx mkSecurityIssue n l).countP (fun i => i.issueType == "SECURITY") = l.length := by
  induction l with
  | nil => intro n; simp [mapWithIdx]
  | cons x xs ih =>
    intro n
    rw [mapWithIdx, List.countP_cons]
    simp [mkSecurityIssue, ih]

theorem countP_mapWithIdx_security_bug (l : List BugFinding) : ∀ (n : Nat),
    (mapWithIdx mkBugIssue n l).countP (fun i => i.issueType == "SECURITY") = 0 := by
  induction l with
  | nil => intro n; simp [mapWithIdx]
  | cons x xs ih =>
    intro n
    rw [mapWithIdx, List.countP_cons]
    simp [mkBugIssue, ih]

theorem countP_mapWithIdx_bug_security (l : List SecFinding) : ∀ (n : Nat),
    (mapWithIdx mkSecurityIssue n l).countP (fun i => i.issueType == "BUG") = 0 := by
  induction l with
  | nil => intro n; simp [mapWithIdx]
  | cons x xs ih =>
    intro n
    rw [mapWithIdx, List.countP_cons]
    simp [mkSecurityIssue, ih]

theorem countP_mapWithIdx_le {α β : Type} (f : Nat → α → β) (p : β → Bool)
    (n : Nat) (l : List α) : (mapWithIdx f n l).countP p ≤ l.length := by
  have h := List.countP_le_length (p := p) (l := mapWithIdx f n l)
  rwa [length_mapWithIdx] at h

theorem findSome?_append_none {α β : Type} (f : α → Option β) :
    ∀ (l1 l2 : List α), (∀ x ∈ l1, f x = none) →
      (l1 ++ l2).findSome? f = l2.findSome? f := by
  intro l1 l2
  induction l1 with
  | nil => intro _; simp
  | cons a l ih =>
    intro h
    rw [List.cons_append, List.findSome?_cons]
    rw [h a (by simp)]
    exact ih (fun x hx => h x (by simp [hx]))

/-- The last-to-first scan returns the unique candidate that is accepted and
followed only by rejected candidates. -/
theorem pickLastAccepted_spec (l1 : List String) (c : String) (l2 : List String) (j : Json)
    (h2 : ∀ d ∈ l2, acceptedParse d = none) (hc : acceptedParse c = some j) :
    pickLastAccepted (l1 ++ c :: l2) = some j := by
  unfold pickLastAccepted
  rw [List.reverse_append, List.reverse_cons, List.append_assoc]
  rw [findSome?_append_none acceptedParse l2.reverse _ (fun x hx => h2 x (List.mem_reverse.mp hx))]
  simp [List.findSome?_cons, hc]

theorem collectCandidates_eq_nil {cs : List Char} (h : ∀ c ∈ cs, ¬ c = '\x7b') :
    collectCandidates cs = [] := by
  have hdw : cs.dropWhile (fun c => !(c = '\x7b')) = [] := by
    rw [List.dropWhile_eq_nil_iff]
    intro x hx
    simp [h x hx]
  rw [collectCandidates, collectCandidatesFuel, hdw]

/-! Stream helper lemmas -/

def progressValues : List StreamEvent → List Int
  | [] => []
  | .progressEv _ p _ :: l => p :: progressValues l
  | _ :: l => progressValues l

/-- Collapse adjacent duplicates, relative to the previously kept value. -/
def dedupFrom (last : Int) : List Int → List Int
  | [] => []
  | p :: ps => if p ≠ last then p :: dedupFrom p ps else dedupFrom last ps

/-- The prefix of the poll sequence the timer actually observes: everything
up to and including the first terminal status (or failed read). -/
def pollsUntilTerminal : List (Option JobSnap) → List (Option JobSnap)
  | [] => []
  | none :: _ => [none]
  | some d :: rest =>
    if isTerminalStatus d.status then [some d] else some d :: pollsUntilTerminal rest

def observedProgress : List (Option JobSnap) → List Int
  | [] => []
  | none :: l => observedProgress l
  | some d :: l => d.progress :: observedProgress l

def isTerminalEv : StreamEvent → Bool
  | .terminal _ => true
  | _ => false

def isConnectedEv : StreamEvent → Bool
  | .connected => true
  | _ => false

theorem streamTicks_progressValues (polls : List (Option JobSnap)) : ∀ last,
    progressValues (streamTicks last polls) =
      dedupFrom last (observedProgress (pollsUntilTerminal polls)) := by
  induction polls with
  | nil =>
    intro last
    simp [streamTicks, pollsUntilTerminal, observedProgress, progressValues, dedupFrom]
  | cons o rest ih =>
    intro last
    match o with
    | none =>
      simp [streamTicks, pollsUntilTerminal, observedProgress, progressValues, dedupFrom]
    | some d =>
      rw [streamTicks, pollsUntilTerminal]
      by_cases hp : d.progress = last <;> by_cases ht : isTerminalStatus d.status <;>
        simp [observedProgress, progressValues, dedupFrom, hp, ht, ih]

theorem streamTicks_no_connected (polls : List (Option JobSnap)) : ∀ last,
    ∀ e ∈ streamTicks last polls, isConnectedEv e = false := by
  induction polls with
  | nil => intro last e he; simp [streamTicks] at he
  | cons o rest ih =>
    intro last e he
    match o with
    | none =>
      rw [streamTicks] at he
      simp at he
      simp [he, isConnectedEv]
    | some d =>
      rw [streamTicks] at he
      by_cases hp : d.progress = last <;> by_cases ht : isTerminalStatus d.status <;>
        simp [hp, ht] at he
      · simp [he, isConnectedEv]
      · exact ih last e he
      · rcases he with he | he <;> simp [he, isConnectedEv]
      · rcases he with he | he
        · simp [he, isConnectedEv]
        · exact ih d.progress e he

theorem streamTicks_terminal_shape (polls : List (Option JobSnap)) : ∀ last,
    (∀ e ∈ streamTicks last polls, isTerminalEv e = false)
    ∨ ∃ pre s, streamTicks last polls = pre ++ [.terminal s]
        ∧ ∀ e ∈ pre, isTerminalEv e = false := by
  induction polls with
  | nil => intro last; left; simp [streamTicks]
  | cons o rest ih =>
    intro last
    match o with
    | none =>
      left
      intro e he
      rw [streamTicks] at he
      simp at he
      simp [he, isTerminalEv]
    | some d =>
      rw [streamTicks]
      by_cases ht : isTerminalStatus d.status
      · right
        by_cases hp : d.progress = last
        · exact ⟨[], d.status, by simp [hp, ht], by simp⟩
        · refine ⟨[.progressEv d.status d.progress d.message], d.status, by simp [hp, ht], ?_⟩
          intro e he
          simp at he
          simp [he, isTerminalEv]
      · rcases ih (if d.progress ≠ last then d.progress else last) with hall | ⟨pre, s, heq, hpre⟩
        · left
          intro e he
          by_cases hp : d.progress = last <;> simp [hp, ht] at he
          · exact hall e (by simpa [hp] using he)
          · rcases he with he | he
            · simp [he, isTerminalEv]
            · exact hall e (by simpa [hp] using he)
        · right
          by_cases hp : d.progress = last
          · refine ⟨pre, s, ?_, hpre⟩
            simp [hp, ht]
            simpa [hp] using heq
          · refine ⟨.progressEv d.status d.progress d.message :: pre, s, ?_, ?_⟩
            · simp [hp, ht]
              simpa [hp] using heq
            · intro e he
              rcases List.mem_cons.mp he with hee | hee
              · simp [hee, isTerminalEv]
              · exact hpre e hee

/-! ## Claim theorems -/

def c1Text : String :=
  "noise \x7b\"foo\":1\x7d mid \x7b\"architecture\":\x7b\"pattern\":\"MVC\"\x7d,\"codeQuality\":\x7b\"score\":80\x7d\x7d tail"

def c1Expected : Json :=
  .jobj [("architecture", .jobj [("pattern", .jstr "MVC")]),
         ("codeQuality", .jobj [("score", .jnum 80)])]

/-- Modelled from the spec's words, for comparison with the code: the
acceptance test as the specification states it — the candidate contains at
least one of the expected top-level keys `architecture`,
`codeQuality`/`code_quality`, `recommendations` (containment of the key, not
truthiness of its value). -/
def specContainsExpectedKey (j : Json) : Bool :=
  (j.getField "architecture").isSome || (j.getField "codeQuality").isSome
    || (j.getField "code_quality").isSome || (j.getField "recommendations").isSome

/-- The specification's candidate acceptance: parses as JSON and contains at
least one expected top-level key. -/
def specAcceptsCandidate (c : String) : Bool :=
  match jsonParse c with
  | some j => specContainsExpectedKey j
  | none => false

def c1CexText : String := "\x7b\"architecture\":1\x7d \x7b\"recommendations\":[]\x7d"

/-- C1 counterexample: the claim's acceptance rule is containment of any of
the expected keys `architecture`, `codeQuality`/`code_quality`,
`recommendations`; the code's rule is `parsed.architecture ||
parsed.codeQuality` — two keys, truthiness not containment.  On text whose
candidates are `\x7b"architecture":1\x7d` then `\x7b"recommendations":[]\x7d`,
the last candidate parses and contains the expected key `recommendations`, so
the claim requires the extractor to return it; the code skips it (no truthy
`architecture`/`codeQuality`) and returns the earlier architecture object
instead. -/
theorem extractJSON_keyset_counterexample :
    collectCandidates c1CexText.data =
      ["\x7b\"architecture\":1\x7d", "\x7b\"recommendations\":[]\x7d"]
    ∧ specAcceptsCandidate "\x7b\"recommendations\":[]\x7d" = true
    ∧ extractJSON c1CexText = .ok (.jobj [("architecture", .jnum 1)])
    ∧ ¬ extractJSON c1CexText = .ok (.jobj [("recommendations", .jarr [])]) := by
  refine ⟨rfl, rfl, rfl, fun h => ?_⟩
  have h4 : extractJSON c1CexText = .ok (.jobj [("architecture", .jnum 1)]) := rfl
  rw [h4] at h
  simp at h

/-- C1 amended: `extractJSON` collects every maximal balanced-brace substring
in order of appearance; it fails with the no-JSON-found error when no
candidate exists (in particular for any text with no opening brace); it
returns the first candidate, scanning last to first, that parses as JSON and
whose `architecture` or `codeQuality` field is present and truthy (the code's
acceptance test — a candidate whose only expected key is `code_quality` or
`recommendations`, or whose `architecture` is falsy, is skipped, witness the
last two conjuncts); and on the text containing exactly `\x7b"foo":1\x7d`
followed by
`\x7b"architecture":\x7b"pattern":"MVC"\x7d,"codeQuality":\x7b"score":80\x7d\x7d`
it returns the second object, whose `architecture.pattern` is `"MVC"` and
whose `codeQuality.score` is `80`. -/
theorem extractJSON_selection :
    (∀ s : String, (∀ c ∈ s.data, ¬ c = '\x7b') → extractJSON s = .error .noJsonFound)
    ∧ (∀ (l1 : List String) (c : String) (l2 : List String) (j : Json),
        (∀ d ∈ l2, acceptedParse d = none) → acceptedParse c = some j →
          pickLastAccepted (l1 ++ c :: l2) = some j)
    ∧ (∀ (s : String) (j : Json),
        pickLastAccepted (collectCandidates s.data) = some j → extractJSON s = .ok j)
    ∧ collectCandidates c1Text.data =
        ["\x7b\"foo\":1\x7d",
         "\x7b\"architecture\":\x7b\"pattern\":\"MVC\"\x7d,\"codeQuality\":\x7b\"score\":80\x7d\x7d"]
    ∧ extractJSON c1Text = .ok c1Expected
    ∧ (c1Expected.getField "architecture").bind (fun a => a.getField "pattern") = some (.jstr "MVC")
    ∧ (c1Expected.getField "codeQuality").bind (fun q => q.getField "score") = some (.jnum 80)
    ∧ acceptCandidate (.jobj [("recommendations", .jarr [.jnum 1])]) = false
    ∧ acceptCandidate (.jobj [("code_quality", .jobj [("score", .jnum 90)])]) = false
    ∧ acceptCandidate (.jobj [("architecture", .jnum 0)]) = false
    ∧ acceptCandidate (.jobj [("architecture", .jnum 1)]) = true := by
  refine ⟨?_, ?_, ?_, rfl, rfl, rfl, rfl, rfl, rfl, rfl, rfl⟩
  · intro s h
    simp [extractJSON, collectCandidates_eq_nil h]
  · intro l1 c l2 j h2 hc
    exact pickLastAccepted_spec l1 c l2 j h2 hc
  · intro s j h
    unfold extractJSON
    cases hc : collectCandidates s.data with
    | nil =>
      rw [hc] at h
      simp [pickLastAccepted] at h
    | cons c cs =>
      rw [hc] at h
      simp [h]

/-- Witness for C1: instantiating each hypothesis-bearing conjunct at concrete
inputs. -/
theorem extractJSON_selection_witness :
    extractJSON "no json here" = .error .noJsonFound
    ∧ pickLastAccepted (["\x7b\"a\":1\x7d"] ++ "\x7b\"architecture\":1\x7d" :: ["\x7b\"b\":2\x7d"])
        = some (.jobj [("architecture", .jnum 1)])
    ∧ extractJSON "x \x7b\"codeQuality\":5\x7d y" = .ok (.jobj [("codeQuality", .jnum 5)]) := by
  refine ⟨?_, ?_, ?_⟩
  · exact extractJSON_selection.1 "no json here" (by decide)
  · refine extractJSON_selection.2.1 ["\x7b\"a\":1\x7d"] "\x7b\"architecture\":1\x7d"
      ["\x7b\"b\":2\x7d"] (.jobj [("architecture", .jnum 1)]) ?_ rfl
    intro d hd
    rw [List.mem_singleton] at hd
    subst hd
    rfl
  · exact extractJSON_selection.2.2.1 "x \x7b\"codeQuality\":5\x7d y"
      (.jobj [("codeQuality", .jnum 5)]) rfl

def c2Variant : Json :=
  .jobj [("code_quality", .jobj [("score", .jnum 90), ("issues", .jarr [])]),
         ("security", .jobj [("assessment", .jobj [("vulnerabilities", .jarr [.jstr "xss"])])])]

/-- C2 counterexample: the claim says the normalization tolerates the
`code_quality` key variant and the security-assessment nesting, coercing them
into the canonical shape (which for this input would carry `score` 90 and a
security array).  On the input carrying exactly those variants the source's
normalization ignores `code_quality` entirely — the result's `codeQuality` is
the neutral default with score 75, not 90 — and passes the nested security
object through unchanged instead of coercing it to the vulnerabilities
array. -/
theorem normalizeAI_variant_counterexample :
    (normalizeAI c2Variant).codeQuality = defaultCodeQuality
    ∧ (normalizeAI c2Variant).codeQuality.getField "score" = some (.jnum 75)
    ∧ ¬ (normalizeAI c2Variant).codeQuality.getField "score" = some (.jnum 90)
    ∧ (normalizeAI c2Variant).security =
        .jobj [("assessment", .jobj [("vulnerabilities", .jarr [.jstr "xss"])])] := by
  refine ⟨rfl, rfl, ?_, rfl⟩
  intro h
  have h75 : (normalizeAI c2Variant).codeQuality.getField "score" = some (.jnum 75) := rfl
  rw [h75] at h
  simp at h

/-- C2 amended: the normalization consults only the exact canonical key names
`architecture`, `codeQuality`, `bugs`, `security`, `recommendations`; a
missing (or falsy) field defaults — `architecture` to the Unknown-pattern
object, `codeQuality` to `\x7bscore: 75, issues: []\x7d`, the rest to empty
arrays — and a present truthy field is passed through unchanged, with no
coercion of variant key names (`code_quality`, a bare score field, or
security nested under an assessment object); a missing score still yields 75
at scoring time. -/
theorem normalizeAI_exact_keys (j : Json) :
    (normalizeAI j).success = true
    ∧ (j.getField "architecture" = none → (normalizeAI j).architecture = defaultArchitecture)
    ∧ (∀ v, j.getField "architecture" = some v → v.truthy = true → (normalizeAI j).architecture = v)
    ∧ (j.getField "codeQuality" = none → (normalizeAI j).codeQuality = defaultCodeQuality)
    ∧ (∀ v, j.getField "codeQuality" = some v → v.truthy = true → (normalizeAI j).codeQuality = v)
    ∧ (j.getField "bugs" = none → (normalizeAI j).bugs = .jarr [])
    ∧ (j.getField "security" = none → (normalizeAI j).security = .jarr [])
    ∧ (j.getField "recommendations" = none → (normalizeAI j).recommendations = .jarr [])
    ∧ scoreOf (normalizeAI (.jobj [])) = 75
    ∧ (normalizeAI c2Variant).codeQuality = defaultCodeQuality := by
  refine ⟨rfl, ?_, ?_, ?_, ?_, ?_, ?_, ?_, rfl, rfl⟩
  · intro h; simp [normalizeAI, jsOrField, h]
  · intro v hv htr; simp [normalizeAI, jsOrField, hv, htr]
  · intro h; simp [normalizeAI, jsOrField, h]
  · intro v hv htr; simp [normalizeAI, jsOrField, hv, htr]
  · intro h; simp [normalizeAI, jsOrField, h]
  · intro h; simp [normalizeAI, jsOrField, h]
  · intro h; simp [normalizeAI, jsOrField, h]

/-- Witness for C2's amended theorem at the empty object. -/
theorem normalizeAI_exact_keys_witness :
    (normalizeAI (Json.jobj [])).architecture = defaultArchitecture
    ∧ (normalizeAI (Json.jobj [])).codeQuality = defaultCodeQuality
    ∧ (normalizeAI c2Variant).codeQuality = defaultCodeQuality := by
  refine ⟨(normalizeAI_exact_keys (Json.jobj [])).2.1 rfl,
          (normalizeAI_exact_keys (Json.jobj [])).2.2.2.1 rfl,
          (normalizeAI_exact_keys c2Variant).2.2.2.2.2.2.2.2.2⟩

/-- C7: the agent runner's result discipline — exit code 0 resolves with the
captured stdout; a nonzero exit still resolves when the captured stdout
exceeds the 100-character threshold and rejects otherwise; on expiry of the
10-minute (600000 ms) timeout the invocation resolves whenever any non-empty
output was captured and rejects with the timeout error exactly when the
output is empty. -/
theorem runClineTask_discipline (code : Int) (out : String) (hcode : ¬ code = 0) :
    runClineTask (.exited 0 out) = .ok out
    ∧ (out.length > 100 → runClineTask (.exited code out) = .ok out)
    ∧ (¬ out.length > 100 → runClineTask (.exited code out) = .error "Cline execution failed")
    ∧ (out.length > 0 → runClineTask (.timedOut out) = .ok out)
    ∧ (out.length = 0 → runClineTask (.timedOut out) = .error "Cline timeout")
    ∧ clineTimeoutMs = 10 * 60 * 1000 := by
  refine ⟨by simp [runClineTask], ?_, ?_, ?_, ?_, rfl⟩ <;>
    intro h <;> simp [runClineTask, hcode, h]

/-- Witness for C7 at exit code 1. -/
theorem runClineTask_discipline_witness :
    runClineTask (.exited 0 "out") = .ok "out"
    ∧ runClineTask (.exited 1 "short") = .error "Cline execution failed"
    ∧ runClineTask (.timedOut "partial") = .ok "partial"
    ∧ runClineTask (.timedOut "") = .error "Cline timeout" := by
  refine ⟨(runClineTask_discipline 1 "out" (by decide)).1,
          (runClineTask_discipline 1 "short" (by decide)).2.2.1 (by decide),
          (runClineTask_discipline 1 "partial" (by decide)).2.2.2.1 (by decide),
          (runClineTask_discipline 1 "" (by decide)).2.2.2.2.1 (by decide)⟩

/-- C9: the fix-trigger endpoint fails synchronously — 404 when the referenced
analysis does not exist, 400 (conflict) when it is not completed — inserting
no fix-job row and launching no background workflow in either case; only a
completed analysis yields the insert and the workflow launch. -/
theorem autonomousFixTrigger_validation (aid tok : Option String) (row : AnalysisRow)
    (hid : jsTruthyStr aid = true) (htok : jsTruthyStr tok = true) :
    autonomousHighImpactFixEndpoint aid tok none = ⟨404, []⟩
    ∧ (¬ row.status = "completed" →
        autonomousHighImpactFixEndpoint aid tok (some row) = ⟨400, []⟩)
    ∧ (row.status = "completed" →
        autonomousHighImpactFixEndpoint aid tok (some row) =
          ⟨200, [.insertFixJob, .launchFixWorkflow]⟩)
    ∧ (∀ lk, ¬ (autonomousHighImpactFixEndpoint aid tok lk).effects = [] →
        ∃ a, lk = some a ∧ a.status = "completed") := by
  refine ⟨?_, ?_, ?_, ?_⟩
  · simp [autonomousHighImpactFixEndpoint, hid, htok]
  · intro h
    simp [autonomousHighImpactFixEndpoint, hid, htok, h]
  · intro h
    simp [autonomousHighImpactFixEndpoint, hid, htok, h]
  · intro lk h
    match lk with
    | none =>
      simp [autonomousHighImpactFixEndpoint, hid, htok] at h
    | some a =>
      by_cases hs : a.status = "completed"
      · exact ⟨a, rfl, hs⟩
      · simp [autonomousHighImpactFixEndpoint, hid, htok, hs] at h

/-- Witness for C9 at concrete request bodies and rows. -/
theorem autonomousFixTrigger_validation_witness :
    autonomousHighImpactFixEndpoint (some "analysis-1") (some "tok") none = ⟨404, []⟩
    ∧ autonomousHighImpactFixEndpoint (some "analysis-1") (some "tok")
        (some ⟨"repo", "owner", "url", "processing"⟩) = ⟨400, []⟩
    ∧ autonomousHighImpactFixEndpoint (some "analysis-1") (some "tok")
        (some ⟨"repo", "owner", "url", "completed"⟩) =
          ⟨200, [.insertFixJob, .launchFixWorkflow]⟩ := by
  refine ⟨(autonomousFixTrigger_validation (some "analysis-1") (some "tok")
            ⟨"repo", "owner", "url", "processing"⟩ (by decide) (by decide)).1,
          (autonomousFixTrigger_validation (some "analysis-1") (some "tok")
            ⟨"repo", "owner", "url", "processing"⟩ (by decide) (by decide)).2.1 (by decide),
          (autonomousFixTrigger_validation (some "analysis-1") (some "tok")
            ⟨"repo", "owner", "url", "completed"⟩ (by decide) (by decide)).2.2.1 (by decide)⟩

/-- C10: the persisted `code_quality` pair is `(score, grade)` where the score
is the agent-reported `codeQuality.score` when present and nonzero and 75
otherwise — in particular a reported score of exactly 0 and the failed-run
fallback (which records score 0) are both replaced by 75 — and the grade is
always one of A (≥ 90), B (≥ 80), C (≥ 70) or D (below 70), never F. -/
theorem calculateScore_spec (ai : AIResult) :
    ((calculateScore ai).2 = "A" ∨ (calculateScore ai).2 = "B" ∨ (calculateScore ai).2 = "C"
      ∨ (calculateScore ai).2 = "D")
    ∧ ¬ (calculateScore ai).2 = "F"
    ∧ (∀ n : Int, ai.codeQuality.getField "score" = some (.jnum n) → ¬ n = 0 →
        (calculateScore ai).1 = n)
    ∧ (ai.codeQuality.getField "score" = some (.jnum 0) → (calculateScore ai).1 = 75)
    ∧ (ai.codeQuality.getField "score" = none → (calculateScore ai).1 = 75)
    ∧ (calculateScore (failedAIResult "agent failed")).1 = 75
    ∧ ((calculateScore ai).1 ≥ 90 → (calculateScore ai).2 = "A")
    ∧ (80 ≤ (calculateScore ai).1 ∧ (calculateScore ai).1 < 90 → (calculateScore ai).2 = "B")
    ∧ (70 ≤ (calculateScore ai).1 ∧ (calculateScore ai).1 < 80 → (calculateScore ai).2 = "C")
    ∧ ((calculateScore ai).1 < 70 → (calculateScore ai).2 = "D") := by
  refine ⟨?_, ?_, ?_, ?_, ?_, rfl, ?_, ?_, ?_, ?_⟩
  · unfold calculateScore gradeOf
    split_ifs <;> simp
  · unfold calculateScore gradeOf
    split_ifs <;> simp
  · intro n h hn
    simp [calculateScore, scoreOf, h, hn]
  · intro h
    simp [calculateScore, scoreOf, h]
  · intro h
    simp [calculateScore, scoreOf, h]
  · intro h
    unfold calculateScore gradeOf at *
    split_ifs <;> first | rfl | omega
  · intro h
    unfold calculateScore gradeOf at *
    split_ifs <;> first | rfl | omega
  · intro h
    unfold calculateScore gradeOf at *
    split_ifs <;> first | rfl | omega
  · intro h
    unfold calculateScore gradeOf at *
    split_ifs <;> first | rfl | omega

/-- Witness for C10: a reported 0 score and the failed fallback both score 75
with grade C; a reported 95 keeps 95 with grade A. -/
theorem calculateScore_spec_witness :
    calculateScore ⟨true, none, .jnull, .jobj [("score", .jnum 0)], .jnull, .jnull, .jnull⟩
      = (75, "C")
    ∧ calculateScore ⟨true, none, .jnull, .jobj [("score", .jnum 95)], .jnull, .jnull, .jnull⟩
      = (95, "A")
    ∧ (calculateScore (failedAIResult "agent failed")).1 = 75 := by
  have h1 := (calculateScore_spec
    ⟨true, none, .jnull, .jobj [("score", .jnum 0)], .jnull, .jnull, .jnull⟩).2.2.2.1 rfl
  have h2 := (calculateScore_spec
    ⟨true, none, .jnull, .jobj [("score", .jnum 95)], .jnull, .jnull, .jnull⟩).2.2.1 95 rfl
    (by decide)
  have h3 := (calculateScore_spec
    ⟨true, none, .jnull, .jobj [("score", .jnum 95)], .jnull, .jnull, .jnull⟩).2.2.2.2.2.2.1
    (by rw [h2]; decide)
  exact ⟨by rw [Prod.ext_iff]; exact ⟨h1, rfl⟩, by rw [Prod.ext_iff]; exact ⟨h2, h3⟩,
    (calculateScore_spec ⟨true, none, .jnull, .jnull, .jnull, .jnull, .jnull⟩).2.2.2.2.2.1⟩

def c3Findings : AiFindings :=
  ⟨[⟨some "SQL Injection", "critical", some "injectable", some "db.js"⟩],
   [⟨"high", some "Null deref", some "a.js"⟩, ⟨"critical", some "Data loss", some "b.js"⟩]⟩

def c3SecIssue : Issue :=
  ⟨"security-0", "SECURITY", "critical", "SQL Injection", some "injectable", some "db.js", 1, true⟩

set_option maxRecDepth 4000 in
/-- C3: the ranked list keeps only critical/high security findings (uncapped)
and only the first 5 critical/high bugs, assigns priority 1 to critical
issues, 2 to high security, 3 to high bugs, and is the stable ascending sort
by priority of the encounter-ordered list (ties keep encounter order: the
per-priority filtrations are unchanged by the sort); on the concrete input
[critical-Security, high-Bug, critical-Bug] the ranked order is
[critical-Security, critical-Bug, high-Bug]. -/
theorem identifyHighImpactIssues_spec (ai : AiFindings) :
    List.Sorted priorityLe (identifyHighImpactIssues ai)
    ∧ (∀ p : Int, (identifyHighImpactIssues ai).filter (fun i => i.priority == p)
        = (collectedIssues ai).filter (fun i => i.priority == p))
    ∧ (∀ i ∈ identifyHighImpactIssues ai,
        (i.issueType = "SECURITY"
          ∧ ((i.severity = "critical" ∧ i.priority = 1) ∨ (i.severity = "high" ∧ i.priority = 2)))
        ∨ (i.issueType = "BUG"
          ∧ ((i.severity = "critical" ∧ i.priority = 1) ∨ (i.severity = "high" ∧ i.priority = 3))))
    ∧ (identifyHighImpactIssues ai).countP (fun i => i.issueType == "BUG") ≤ 5
    ∧ (identifyHighImpactIssues ai).countP (fun i => i.issueType == "SECURITY")
        = (ai.security.filter (fun s => isHighSeverity s.severity)).length
    ∧ identifyHighImpactIssues c3Findings =
        [c3SecIssue,
         ⟨"bug-2", "BUG", "critical", "Data loss", some "Data loss", some "b.js", 1, true⟩,
         ⟨"bug-1", "BUG", "high", "Null deref", some "Null deref", some "a.js", 3, true⟩] := by
  refine ⟨sortByPriority_sorted (collectedIssues ai), fun p => filter_sortByPriority p _,
    ?_, ?_, ?_, by decide⟩
  · intro i hi
    have hmem : i ∈ collectedIssues ai :=
      (sortByPriority_perm (collectedIssues ai)).mem_iff.mp hi
    unfold collectedIssues at hmem
    rcases List.mem_append.mp hmem with hsec | hbug
    · obtain ⟨k, x, hx, hieq⟩ := mem_mapWithIdx mkSecurityIssue _ _ i hsec
      have hxs := (List.mem_filter.mp hx).2
      subst hieq
      left
      refine ⟨rfl, ?_⟩
      simp only [isHighSeverity] at hxs
      simp only [Bool.or_eq_true, decide_eq_true_eq] at hxs
      rcases hxs with hc | hh
      · exact Or.inl ⟨hc, by simp [mkSecurityIssue, hc]⟩
      · refine Or.inr ⟨hh, ?_⟩
        simp [mkSecurityIssue, hh]
    · obtain ⟨k, x, hx, hieq⟩ := mem_mapWithIdx mkBugIssue _ _ i hbug
      have hx2 := List.mem_of_mem_take hx
      have hxs := (List.mem_filter.mp hx2).2
      subst hieq
      right
      refine ⟨rfl, ?_⟩
      simp only [isHighSeverity] at hxs
      simp only [Bool.or_eq_true, decide_eq_true_eq] at hxs
      rcases hxs with hc | hh
      · exact Or.inl ⟨hc, by simp [mkBugIssue, hc]⟩
      · refine Or.inr ⟨hh, ?_⟩
        simp [mkBugIssue, hh]
  · unfold identifyHighImpactIssues
    rw [(sortByPriority_perm (collectedIssues ai)).countP_eq]
    unfold collectedIssues
    rw [List.countP_append, countP_mapWithIdx_bug_security]
    have h1 := countP_mapWithIdx_le mkBugIssue (fun i => i.issueType == "BUG")
      (mapWithIdx mkSecurityIssue 0 (ai.security.filter (fun s => isHighSeverity s.severity))).length
      ((ai.bugs.filter (fun b => isHighSeverity b.severity)).take 5)
    have h2 : ((ai.bugs.filter (fun b => isHighSeverity b.severity)).take 5).length ≤ 5 := by
      rw [List.length_take]
      exact min_le_left 5 _
    omega
  · unfold identifyHighImpactIssues
    rw [(sortByPriority_perm (collectedIssues ai)).countP_eq]
    unfold collectedIssues
    rw [List.countP_append, countP_mapWithIdx_security, countP_mapWithIdx_security_bug]
    omega

/-- Witness for C3: the stability conjunct at priority 1 and the shape
conjunct at the ranked critical security issue, on the concrete findings. -/
theorem identifyHighImpactIssues_spec_witness :
    ((identifyHighImpactIssues c3Findings).filter (fun i => i.priority == 1)
      = (collectedIssues c3Findings).filter (fun i => i.priority == 1))
    ∧ ((c3SecIssue.issueType = "SECURITY"
        ∧ ((c3SecIssue.severity = "critical" ∧ c3SecIssue.priority = 1)
          ∨ (c3SecIssue.severity = "high" ∧ c3SecIssue.priority = 2)))
      ∨ (c3SecIssue.issueType = "BUG"
        ∧ ((c3SecIssue.severity = "critical" ∧ c3SecIssue.priority = 1)
          ∨ (c3SecIssue.severity = "high" ∧ c3SecIssue.priority = 3)))) :=
  ⟨(identifyHighImpactIssues_spec c3Findings).2.1 1,
   (identifyHighImpactIssues_spec c3Findings).2.2.1 c3SecIssue (by decide)⟩

def fixEnvAllOk : FixEnv :=
  ⟨true, "", true, "", true, "", true, true, true, true, true, "", true, "", true, "",
   "https://github.com/o/r/pull/7", 7⟩

/-- C4: when the ranked high-impact issue list is empty, the fix job's trace
is exactly the initial progress write followed by the completed update with
progress 100 and the no-issues message — no temp directory, clone, agent,
git, push or PR-creation operation ever appears — and the resulting row is
completed at progress 100. -/
theorem autonomousFix_no_issues_short_circuit (env : FixEnv) (ai : AiFindings)
    (owner repo : String) (h : identifyHighImpactIssues ai = []) :
    runAutonomousHighImpactFix env ai owner repo =
      [.store (stepUpdate "analyzing" 10 "Analyzing issues..."), .store fixNoIssuesUpdate]
    ∧ fixNoIssuesUpdate.status = some "completed"
    ∧ fixNoIssuesUpdate.progress = some 100
    ∧ fixNoIssuesUpdate.message = some "No high-impact issues detected"
    ∧ (∀ e ∈ runAutonomousHighImpactFix env ai owner repo,
        ¬ e = .mkTempDir ∧ ¬ e = .gitClone ∧ ¬ e = .agentInvoke
        ∧ (∀ args, ¬ e = .gitCmd args) ∧ ¬ e = .gitPush ∧ ¬ e = .createPR)
    ∧ (finalRecord initialFixRecord (runAutonomousHighImpactFix env ai owner repo)).status
        = "completed"
    ∧ (finalRecord initialFixRecord (runAutonomousHighImpactFix env ai owner repo)).progress
        = 100 := by
  have htrace : runAutonomousHighImpactFix env ai owner repo =
      [.store (stepUpdate "analyzing" 10 "Analyzing issues..."), .store fixNoIssuesUpdate] := by
    unfold runAutonomousHighImpactFix
    simp [h]
  refine ⟨htrace, rfl, rfl, rfl, ?_, ?_, ?_⟩
  · rw [htrace]
    intro e he
    rcases List.mem_cons.mp he with he1 | he2
    · subst he1
      exact ⟨by simp, by simp, by simp, fun args => by simp, by simp, by simp⟩
    · rw [List.mem_singleton] at he2
      subst he2
      exact ⟨by simp, by simp, by simp, fun args => by simp, by simp, by simp⟩
  · rw [htrace]
    rfl
  · rw [htrace]
    rfl

/-- Witness for C4 at the empty findings. -/
theorem autonomousFix_no_issues_witness :
    runAutonomousHighImpactFix fixEnvAllOk ⟨[], []⟩ "owner" "repo" =
      [.store (stepUpdate "analyzing" 10 "Analyzing issues..."), .store fixNoIssuesUpdate] :=
  (autonomousFix_no_issues_short_circuit fixEnvAllOk ⟨[], []⟩ "owner" "repo" rfl).1

def c8Polls : List (Option JobSnap) :=
  [some ⟨"cloning", 0, 0, 6, "Cloning repository..."⟩,
   some ⟨"cloning", 15, 1, 6, "Cloning repository..."⟩,
   some ⟨"analyzing", 15, 1, 6, "Analyzing structure..."⟩,
   some ⟨"completed", 30, 2, 6, "Analysis complete"⟩]

/-- C8 counterexample: for observed progress 0→15→15→30 the claim says exactly
two progress events, 15 and 30.  The source initializes `lastProgress` to -1,
so the first observation (progress 0) also differs from it and emits: the
stream emits three progress events — 0, 15 and 30. -/
theorem streamProgress_counterexample :
    progressValues (streamAnalysisProgress c8Polls) = [0, 15, 30]
    ∧ ¬ progressValues (streamAnalysisProgress c8Polls) = [15, 30] := by
  refine ⟨rfl, fun h => ?_⟩
  have h2 : ([0, 15, 30] : List Int) = [15, 30] := by
    calc ([0, 15, 30] : List Int)
        = progressValues (streamAnalysisProgress c8Polls) := rfl
      _ = [15, 30] := h
  exact absurd h2 (by decide)

/-- C8 amended: the stream emits one connected event (the timer ticks never
emit another), then progress events whose values are exactly the observed
progress sequence with values equal to the previously emitted value
suppressed, starting from the baseline -1 — so for observed progress
0→15→15→30 exactly three progress events (0, 15, 30) are emitted, the
duplicate 15 suppressed — then at most one terminal event, which is always
the last event, when status becomes completed or failed; a disconnect (the
poll sequence ending) stops the timer and emits nothing further. -/
theorem streamProgress_dedup (polls : List (Option JobSnap)) :
    streamAnalysisProgress polls = .connected :: streamTicks (-1) polls
    ∧ (∀ e ∈ streamTicks (-1) polls, isConnectedEv e = false)
    ∧ progressValues (streamAnalysisProgress polls)
        = dedupFrom (-1) (observedProgress (pollsUntilTerminal polls))
    ∧ ((∀ e ∈ streamTicks (-1) polls, isTerminalEv e = false)
        ∨ ∃ pre s, streamTicks (-1) polls = pre ++ [.terminal s]
            ∧ ∀ e ∈ pre, isTerminalEv e = false)
    ∧ streamAnalysisProgress c8Polls =
        [.connected, .progressEv "cloning" 0 "Cloning repository...",
         .progressEv "cloning" 15 "Cloning repository...",
         .progressEv "completed" 30 "Analysis complete", .terminal "completed"] := by
  refine ⟨rfl, streamTicks_no_connected polls (-1), ?_,
    streamTicks_terminal_shape polls (-1), rfl⟩
  have h := streamTicks_progressValues polls (-1)
  simpa [streamAnalysisProgress, progressValues] using h

/-- Witness for C8's amended theorem at the concrete poll sequence. -/
theorem streamProgress_dedup_witness :
    progressValues (streamAnalysisProgress c8Polls)
      = dedupFrom (-1) (observedProgress (pollsUntilTerminal c8Polls)) :=
  (streamProgress_dedup c8Polls).2.2.1

def analysisEnvOk : AnalysisEnv := ⟨true, "", true, "", .exited 0 c1Text, false, false, true⟩

/-- C5: across the store updates of a single workflow run — for every
environment of external-call outcomes and every analysis input, in both the
analysis workflow and the autonomous-fix workflow — the progress field is
monotonically non-decreasing over the whole run (the failure update never
touches progress, so this also covers the runs that end Failed), and at every
intermediate row state progress equals 100 exactly when status equals
completed. -/
theorem progress_invariant (envA : AnalysisEnv) (envF : FixEnv) (ai : AiFindings)
    (owner repo : String) :
    (progressMonotone (recordStates initialAnalysisRecord (performAnalysis envA))
      ∧ ∀ r ∈ recordStates initialAnalysisRecord (performAnalysis envA), progressStatusOk r)
    ∧ (progressMonotone
        (recordStates initialFixRecord (runAutonomousHighImpactFix envF ai owner repo))
      ∧ ∀ r ∈ recordStates initialFixRecord (runAutonomousHighImpactFix envF ai owner repo),
          progressStatusOk r) := by
  constructor
  · unfold performAnalysis aiFixTrace analysisFailTrace
    split_ifs <;>
      simp [recordStates, storeUpdates, statesFrom, applyUpdate, progressMonotone,
        progressStatusOk, initialAnalysisRecord, stepUpdateWithStep, emptyUpdate,
        failedUpdate, analysisCompletedUpdate, List.chain'_cons]
  · rcases envF with ⟨mk, mke, cl, cls, fg, fge, g1, g2, g3, g4, g5, gs, pu, pus, pr, prm, pru, prn⟩
    by_cases hiss : (identifyHighImpactIssues ai).length = 0
    · simp [runAutonomousHighImpactFix, fixFailTrace, recordStates, storeUpdates,
              statesFrom, applyUpdate, progressMonotone, progressStatusOk, initialFixRecord,
              stepUpdate, emptyUpdate, failedUpdate, fixNoIssuesUpdate, fixCompletedUpdate,
              setHighImpactUpdate, List.chain'_cons, hiss]
    · cases mk
      · simp [runAutonomousHighImpactFix, fixFailTrace, recordStates, storeUpdates,
              statesFrom, applyUpdate, progressMonotone, progressStatusOk, initialFixRecord,
              stepUpdate, emptyUpdate, failedUpdate, fixNoIssuesUpdate, fixCompletedUpdate,
              setHighImpactUpdate, List.chain'_cons, hiss]
      · cases cl
        · simp [runAutonomousHighImpactFix, fixFailTrace, recordStates, storeUpdates,
              statesFrom, applyUpdate, progressMonotone, progressStatusOk, initialFixRecord,
              stepUpdate, emptyUpdate, failedUpdate, fixNoIssuesUpdate, fixCompletedUpdate,
              setHighImpactUpdate, List.chain'_cons, hiss]
        · cases fg
          · simp [runAutonomousHighImpactFix, fixFailTrace, recordStates, storeUpdates,
              statesFrom, applyUpdate, progressMonotone, progressStatusOk, initialFixRecord,
              stepUpdate, emptyUpdate, failedUpdate, fixNoIssuesUpdate, fixCompletedUpdate,
              setHighImpactUpdate, List.chain'_cons, hiss]
          · cases g1
            · simp [runAutonomousHighImpactFix, fixFailTrace, recordStates, storeUpdates,
              statesFrom, applyUpdate, progressMonotone, progressStatusOk, initialFixRecord,
              stepUpdate, emptyUpdate, failedUpdate, fixNoIssuesUpdate, fixCompletedUpdate,
              setHighImpactUpdate, List.chain'_cons, hiss]
            · cases g2
              · simp [runAutonomousHighImpactFix, fixFailTrace, recordStates, storeUpdates,
              statesFrom, applyUpdate, progressMonotone, progressStatusOk, initialFixRecord,
              stepUpdate, emptyUpdate, failedUpdate, fixNoIssuesUpdate, fixCompletedUpdate,
              setHighImpactUpdate, List.chain'_cons, hiss]
              · cases g3
                · simp [runAutonomousHighImpactFix, fixFailTrace, recordStates, storeUpdates,
              statesFrom, applyUpdate, progressMonotone, progressStatusOk, initialFixRecord,
              stepUpdate, emptyUpdate, failedUpdate, fixNoIssuesUpdate, fixCompletedUpdate,
              setHighImpactUpdate, List.chain'_cons, hiss]
                · cases g4
                  · simp [runAutonomousHighImpactFix, fixFailTrace, recordStates, storeUpdates,
              statesFrom, applyUpdate, progressMonotone, progressStatusOk, initialFixRecord,
              stepUpdate, emptyUpdate, failedUpdate, fixNoIssuesUpdate, fixCompletedUpdate,
              setHighImpactUpdate, List.chain'_cons, hiss]
                  · cases g5
                    · simp [runAutonomousHighImpactFix, fixFailTrace, recordStates, storeUpdates,
              statesFrom, applyUpdate, progressMonotone, progressStatusOk, initialFixRecord,
              stepUpdate, emptyUpdate, failedUpdate, fixNoIssuesUpdate, fixCompletedUpdate,
              setHighImpactUpdate, List.chain'_cons, hiss]
                    · cases pu
                      · simp [runAutonomousHighImpactFix, fixFailTrace, recordStates, storeUpdates,
              statesFrom, applyUpdate, progressMonotone, progressStatusOk, initialFixRecord,
              stepUpdate, emptyUpdate, failedUpdate, fixNoIssuesUpdate, fixCompletedUpdate,
              setHighImpactUpdate, List.chain'_cons, hiss]
                      · cases pr
                        · simp [runAutonomousHighImpactFix, fixFailTrace, recordStates, storeUpdates,
              statesFrom, applyUpdate, progressMonotone, progressStatusOk, initialFixRecord,
              stepUpdate, emptyUpdate, failedUpdate, fixNoIssuesUpdate, fixCompletedUpdate,
              setHighImpactUpdate, List.chain'_cons, hiss]
                        · simp [runAutonomousHighImpactFix, fixFailTrace, recordStates, storeUpdates,
              statesFrom, applyUpdate, progressMonotone, progressStatusOk, initialFixRecord,
              stepUpdate, emptyUpdate, failedUpdate, fixNoIssuesUpdate, fixCompletedUpdate,
              setHighImpactUpdate, List.chain'_cons, hiss]

/-- Witness for C5 at concrete environments. -/
theorem progress_invariant_witness :
    progressMonotone (recordStates initialAnalysisRecord (performAnalysis analysisEnvOk))
    ∧ progressMonotone (recordStates initialFixRecord
        (runAutonomousHighImpactFix fixEnvAllOk c3Findings "o" "r")) :=
  ⟨(progress_invariant analysisEnvOk fixEnvAllOk c3Findings "o" "r").1.1,
   (progress_invariant analysisEnvOk fixEnvAllOk c3Findings "o" "r").2.1⟩

def c6Env404 : AnalysisEnv := ⟨true, "", false, "404", .exited 0 "", false, false, true⟩

def c6EnvGeneric : AnalysisEnv :=
  ⟨true, "", false, "network reset", .exited 0 "", false, false, true⟩

/-- C6 counterexample: the claim requires the analysis workflow's clone
failure with a 404 stderr to end with an error message distinguishing
not-found (and 403 auth failure) from a generic clone failure.  The source's
`cloneRepository` rejects with the same `Git clone failed: <stderr>` for
every nonzero exit, never inspecting the stderr — only the push path
(`pushToGitHub`) classifies 403/404.  With stderr `"404"` the recorded error
is `"Git clone failed: 404"`, which carries no not-found wording and has
exactly the same shape as the generic-failure message. -/
theorem cloneFailure_counterexample :
    (finalRecord initialAnalysisRecord (performAnalysis c6Env404)).error
      = some "Git clone failed: 404"
    ∧ strContains "Git clone failed: 404" "not found" = false
    ∧ (finalRecord initialAnalysisRecord (performAnalysis c6EnvGeneric)).error
      = some "Git clone failed: network reset"
    ∧ pushErrorMsg "o" "r" "404" = "Repository o/r not found." := by
  exact ⟨rfl, by decide, rfl, rfl⟩

/-- C6 amended: for every clone failure — whatever the stderr, in particular
one containing "404" — the analysis workflow ends with status failed and the
error message `Git clone failed: <stderr>` (the stderr echoed verbatim, with
no not-found or auth classification), and the workspace directory is removed
right after the failure is recorded. -/
theorem cloneFailure_generic_error (env : AnalysisEnv)
    (hmk : env.mkdirOk = true) (hcl : env.cloneOk = false) :
    performAnalysis env =
      [.mkTempDir, .store (stepUpdateWithStep "cloning" 15 1 "Cloning repository..."),
       .gitClone, .store (failedUpdate ("Git clone failed: " ++ env.cloneStderr)), .cleanupDir]
    ∧ (finalRecord initialAnalysisRecord (performAnalysis env)).status = "failed"
    ∧ (finalRecord initialAnalysisRecord (performAnalysis env)).error
        = some ("Git clone failed: " ++ env.cloneStderr) := by
  have htrace : performAnalysis env =
      [.mkTempDir, .store (stepUpdateWithStep "cloning" 15 1 "Cloning repository..."),
       .gitClone, .store (failedUpdate ("Git clone failed: " ++ env.cloneStderr)), .cleanupDir] := by
    unfold performAnalysis analysisFailTrace cloneFailMsg
    simp [hmk, hcl]
  refine ⟨htrace, ?_, ?_⟩ <;> rw [htrace] <;> rfl

/-- Witness for C6's amended theorem at the concrete 404 environment. -/
theorem cloneFailure_generic_error_witness :
    (finalRecord initialAnalysisRecord (performAnalysis c6Env404)).status = "failed"
    ∧ (finalRecord initialAnalysisRecord (performAnalysis c6Env404)).error
        = some ("Git clone failed: " ++ "404") :=
  ⟨(cloneFailure_generic_error c6Env404 rfl rfl).2.1,
   (cloneFailure_generic_error c6Env404 rfl rfl).2.2⟩

end DevPulse
